import Mathlib

/-!
# Verification of salt/modules/localemod.py

A shallow embedding of the locale execution module: the systemd `localectl`
adapter (`_parse_localectl`, `_localectl_get`, `_localectl_set`), the locale
query (`get_locale`), the availability check (`avail`), and the locale
generator (`gen_locale`).  External collaborators (command execution, file
search/replace, directory listing, executable lookup) are modelled as oracle
functions carried in an environment record; code paths that can raise a
Python exception are modelled with `Except`.
-/

namespace Localemod

/-! ## String helpers mirroring the Python primitives used by the module -/

/-- Python `str.strip()`: drop leading and trailing whitespace. -/
def pyStrip (l : List Char) : List Char :=
  ((l.dropWhile Char.isWhitespace).reverse.dropWhile Char.isWhitespace).reverse

/-- Python `str.split(':', 1)` followed by `str.strip` on each part: at most
two components, split at the first colon. -/
def splitColon1 (line : String) : List String :=
  match line.toList.dropWhile (fun c => c ≠ ':') with
  | [] => [String.mk (pyStrip (line.toList.takeWhile (fun c => c ≠ ':')))]
  | _ :: rest =>
      [String.mk (pyStrip (line.toList.takeWhile (fun c => c ≠ ':'))),
       String.mk (pyStrip rest)]

/-- Python `val.replace('"', '')`: remove every double-quote character. -/
def stripQuotes (s : String) : String :=
  String.mk (s.toList.filter (fun c => c ≠ '"'))

/-- Python `re.match('^([A-Z_]+)=(.*)$', s)`: a maximal nonempty run of
`[A-Z_]` characters followed by `=`, capturing the key and the rest. -/
def matchKV (s : String) : Option (String × String) :=
  let l := s.toList
  let key := l.takeWhile (fun c => ('A' ≤ c ∧ c ≤ 'Z') ∨ c = '_')
  match l.dropWhile (fun c => ('A' ≤ c ∧ c ≤ 'Z') ∨ c = '_') with
  | '=' :: rest => if key = [] then none else some (String.mk key, String.mk rest)
  | _ => none

/-- Python-dict assignment `m[k] = v` on an association list: overwrite the
value at an existing key in place, otherwise append the new binding. -/
def dictInsert (m : List (String × String)) (k v : String) : List (String × String) :=
  if m.any (fun p => p.1 = k) then
    m.map (fun p => if p.1 = k then (k, v) else p)
  else
    m ++ [(k, v)]

/-- Substring search on character lists. -/
def hasSubstr (l sub : List Char) : Bool :=
  sub.isPrefixOf l ||
    match l with
    | [] => false
    | _ :: t => hasSubstr t sub

/-- Python `'sub' in s`: substring containment test. -/
def containsSubstr (s sub : String) : Bool :=
  hasSubstr s.toList sub.toList

/-! ## `_parse_localectl`

The Python loop keeps a variable `cur_param` that is only assigned when a
line contains a colon; reading it on a colon-free line before any colon line
raises `UnboundLocalError`.  The state is therefore `Option String` (the
current parameter block, `none` when still unassigned) together with the
accumulated parameter map, and the whole parse lives in `Except Unit`. -/

/-- One iteration of the `_parse_localectl` loop over one output line. -/
def parseStep (st : Option String × List (String × String)) (line : String) :
    Except Unit (Option String × List (String × String)) :=
  match splitColon1 line with
  | [c0] =>
      -- no colon: cur_param is left unchanged; reading it unassigned raises
      match st.1 with
      | none => .error ()
      | some cp =>
          if cp = "System Locale" then
            match matchKV c0 with
            | some kv => .ok (some cp, dictInsert st.2 kv.1 (stripQuotes kv.2))
            | none => .ok st          -- odd parameter: logged and skipped
          else .ok st                 -- outside the recognized block: ignored
  | [c0, c1] =>
      -- colon present: cur_param := c0, remaining column is c1
      if c0 = "System Locale" then
        match matchKV c1 with
        | some kv => .ok (some c0, dictInsert st.2 kv.1 (stripQuotes kv.2))
        | none => .ok (some c0, st.2) -- odd parameter: logged and skipped
      else .ok (some c0, st.2)
  | _ => .ok st

/-- `_parse_localectl`, as a function of the `localectl` output lines.
Returns the parameter map, or `.error ()` when the Python code would raise. -/
def parseLocalectl (lines : List String) : Except Unit (List (String × String)) :=
  (lines.foldlM parseStep (none, [])).map (fun st => st.2)

/-- `_localectl_get`: the `LANG` entry of the parsed map, defaulting to
the empty string. -/
def localectlGet (lines : List String) : Except Unit String :=
  (parseLocalectl lines).map (fun m => ((m.lookup "LANG").getD ""))

/-- Serialization of the parameter map performed by `_localectl_set`:
`KEY="value"` pairs joined by single spaces after `localectl set-locale `. -/
def localectlSetCmd (params : List (String × String)) : String :=
  "localectl set-locale " ++
    String.intercalate " "
      (params.map (fun p => p.1 ++ "=\"" ++ p.2 ++ "\""))

/-- `_localectl_set(locale)`: parse the current parameters, overwrite `LANG`,
serialize, run `localectl set-locale`, and report exit code zero.  The
`retcode` oracle models `cmd.retcode`. -/
def localectlSet (lines : List String) (locale : String) (retcode : String → Int) :
    Except Unit Bool :=
  (parseLocalectl lines).map
    (fun m => decide (retcode (localectlSetCmd (dictInsert m "LANG" locale)) = 0))

/-! ## `get_locale` -/

/-- Split a character list on newline characters. -/
def splitLinesL : List Char → List (List Char)
  | [] => [[]]
  | c :: t =>
      if c = '\n' then [] :: splitLinesL t
      else
        match splitLinesL t with
        | [] => [[c]]
        | h :: r => (c :: h) :: r

/-- Python `str.splitlines`, restricted to newline separators as produced by
command output. -/
def splitLines (s : String) : List String :=
  (splitLinesL s.toList).map String.mk

/-- The field extraction `out.split('=')[1].replace('"', '')` guarded by
`except IndexError: return ''`: the text between the first `=` and the next
`=` (or the end), with double quotes removed; empty when no `=` occurs. -/
def extractEq (out : String) : String :=
  match out.toList.dropWhile (fun c => c ≠ '=') with
  | [] => ""
  | _ :: rest => String.mk ((rest.takeWhile (fun c => c ≠ '=')).filter (fun c => c ≠ '"'))

/-- The spec reads the extraction as taking all text after the FIRST `=`
(quotes stripped); used to compare the spec sentence against `extractEq`. -/
def extractAfterFirstEqSpec (out : String) : String :=
  match out.toList.dropWhile (fun c => c ≠ '=') with
  | [] => ""
  | _ :: rest => String.mk (rest.filter (fun c => c ≠ '"'))

/-- Environment of `get_locale`: the `os_family` grain and the `cmd.run`
collaborator (command string to captured stdout). -/
structure GetEnv where
  osFamily : String
  cmdRun : String → String

/-- `get_locale()`: dispatch on substring containment in `os_family`, in the
order Arch, RedHat, Debian, Gentoo, then the fall-through empty command.
The Arch path delegates to `_localectl_get` and thus inherits its possible
failure. -/
def getLocale (env : GetEnv) : Except Unit String :=
  if containsSubstr env.osFamily "Arch" then
    localectlGet (splitLines (env.cmdRun "localectl"))
  else if containsSubstr env.osFamily "RedHat" then
    .ok (extractEq (env.cmdRun "grep \"^LANG=\" /etc/sysconfig/i18n"))
  else if containsSubstr env.osFamily "Debian" then
    .ok (extractEq (env.cmdRun "grep \"^LANG=\" /etc/default/locale"))
  else if containsSubstr env.osFamily "Gentoo" then
    .ok (String.mk (pyStrip (env.cmdRun "eselect --brief locale show").toList))
  else
    .ok (extractEq (env.cmdRun ""))

/-! ## Locale-string utilities

`salt.utils.locales` is a collaborator of this module whose source is not part
of the repository slice; its behavior is modelled from the spec. -/

/-- Split a character list at the first occurrence of `c`; the second
component is empty when `c` is absent. -/
def splitOnceChar (l : List Char) (c : Char) : List Char × List Char :=
  (l.takeWhile (fun x => x ≠ c), (l.dropWhile (fun x => x ≠ c)).tail)

/-- The decomposed locale string: `language`, `territory`, `codeset` and the
optional `charmap` (empty when absent). -/
structure LocaleInfo where
  language : String
  territory : String
  codeset : String
  charmap : String
deriving DecidableEq

/-- Modelled from the spec: `salt.utils.locales.split_locale` parses a locale
string of the form `language_territory.codeset@charmap` into its parts, with
absent parts becoming empty strings. -/
def splitLocale (loc : String) : LocaleInfo :=
  let (body, charmap) := splitOnceChar loc.toList '@'
  let (langterr, codeset) := splitOnceChar body '.'
  let (language, territory) := splitOnceChar langterr '_'
  { language := String.mk language
    territory := String.mk territory
    codeset := String.mk codeset
    charmap := String.mk charmap }

/-- Modelled from the spec: `salt.utils.locales.join_locale` reassembles the
parts into `language_territory.codeset@charmap`, omitting empty parts. -/
def joinLocale (info : LocaleInfo) : String :=
  info.language ++
    (if info.territory = "" then "" else "_" ++ info.territory) ++
    (if info.codeset = "" then "" else "." ++ info.codeset) ++
    (if info.charmap = "" then "" else "@" ++ info.charmap)

/-- Modelled from the spec: `salt.utils.locales.normalize_locale` normalizes
a locale string for comparison by case-folding the codeset (the part after
the first dot) and removing its dashes, so that `en_US.utf8` and
`en_US.UTF-8` agree; it fails (Python `IndexError`) on malformed input that
has no codeset part. -/
def normalizeLocale (loc : String) : Option String :=
  match loc.toList.dropWhile (fun c => c ≠ '.') with
  | [] => none
  | _ :: codeset =>
      some (String.mk ((loc.toList.takeWhile (fun c => c ≠ '.')) ++
        '.' :: ((codeset.map Char.toLower).filter (fun c => c ≠ '-'))))

/-! ## `avail` -/

/-- Python `x.strip()` as a string-to-string operation. -/
def pyStripStr (s : String) : String :=
  String.mk (pyStrip s.toList)

/-- The `next((True for x in avail_locales if ...), False)` scan of `avail`:
lazily normalizes each trimmed entry; a failing normalization propagates
(`.error ()`), the first match short-circuits to true. -/
def availScan (n : String) : List String → Except Unit Bool
  | [] => .ok false
  | x :: xs =>
      match normalizeLocale (pyStripStr x) with
      | none => .error ()
      | some nx => if nx = n then .ok true else availScan n xs

/-- `avail(locale)` as a function of the requested locale and of the
available-locales list returned by `list_avail`.  Only the normalization of
the request is guarded by `except IndexError`; a failing normalization of a
list entry propagates (`.error ()`). -/
def availCheck (locale : String) (availLocales : List String) : Except Unit Bool :=
  match normalizeLocale locale with
  | none => .ok false
  | some n => availScan n availLocales

/-! ## `gen_locale` -/

/-- Result of `cmd.run_all`. -/
structure CmdResult where
  retcode : Int
  stdout : String
  stderr : String
deriving DecidableEq

/-- The observable side effects performed by `gen_locale` after validation:
file edits and the final compile command. -/
inductive Action where
  | fileReplace (path pat repl : String) (appendIfNotFound : Bool)
  | fileTouch (path : String)
  | runCmd (args : List String)
deriving DecidableEq

/-- Environment of `gen_locale`: grains and collaborator oracles.  `listdir`
models `os.listdir`, which can raise `OSError` (`.error` carries its text). -/
structure GenEnv where
  os : String
  osFamily : String
  fileSearch : String → String → Bool
  listdir : String → Except String (List String)
  pathExists : String → Bool
  whichProg : String → Option String
  runAll : List String → CmdResult

/-- Return value of `gen_locale`: the full command result when `verbose`
was requested, a plain boolean otherwise. -/
inductive GenRet where
  | full (res : CmdResult)
  | flag (b : Bool)
deriving DecidableEq

/-- The validation phase of `gen_locale` (lines 203-227): returns whether the
locale validated, together with the (possibly rejoined) locale string and
locale info the rest of the function uses; `.error` is the
`CommandExecutionError` raised when the directory listing fails. -/
def genValid (env : GenEnv) (locale : String) :
    Except String (Bool × String × LocaleInfo) :=
  let onDebian := env.os = "Debian"
  let onGentoo := env.osFamily = "Gentoo"
  let onSuse := env.osFamily = "Suse"
  let info := splitLocale locale
  if onDebian ∨ onGentoo then
    let valid := env.fileSearch "/usr/share/i18n/SUPPORTED" ("^" ++ locale ++ "$")
    if ¬valid ∧ info.charmap = "" then
      -- charmap was not supplied, so try copying the codeset
      let info2 : LocaleInfo := { info with charmap := info.codeset }
      let locale2 := joinLocale info2
      .ok (env.fileSearch "/usr/share/i18n/SUPPORTED" ("^" ++ locale2 ++ "$"),
           locale2, info2)
    else
      .ok (valid, locale, info)
  else
    let search := if onSuse then "/usr/share/locale" else "/usr/share/i18n/locales"
    match env.listdir search with
    | .ok entries =>
        .ok (decide ((info.language ++ "_" ++ info.territory) ∈ entries), locale, info)
    | .error _ =>
        .error ("Locale \"" ++ locale ++ "\" is not available.")

/-- The registration step of `gen_locale` (lines 233-249): uncomment or append
the locale in `/etc/locale.gen` when it exists, else on Ubuntu touch and fill
the per-language file under `/var/lib/locales/supported.d/`. -/
def regActions (env : GenEnv) (locale : String) (info : LocaleInfo) : List Action :=
  if env.pathExists "/etc/locale.gen" then
    [Action.fileReplace "/etc/locale.gen"
      ("^\\s*#\\s*" ++ locale ++ "\\s*$") locale true]
  else if env.os = "Ubuntu" then
    [Action.fileTouch ("/var/lib/locales/supported.d/" ++ info.language),
     Action.fileReplace ("/var/lib/locales/supported.d/" ++ info.language)
       locale locale true]
  else
    []

/-- The `locale-gen` invocation built on lines 252-256: `--generate` on
Gentoo, and no locale argument on Ubuntu. -/
def localeGenCmd (env : GenEnv) (locale : String) : List String :=
  ["locale-gen"] ++
    (if env.osFamily = "Gentoo" then ["--generate"] else []) ++
    (if env.os = "Ubuntu" then [] else [locale])

/-- The `localedef` invocation built on lines 258-262. -/
def localedefCmd (info : LocaleInfo) (locale : String) (verbose : Bool) : List String :=
  ["localedef", "--force",
   "-i", info.language ++ "_" ++ info.territory,
   "-f", info.codeset,
   locale,
   if verbose then "--verbose" else "--quiet"]

/-- `gen_locale(locale, verbose=...)`: validation, registration, compile-tool
selection and execution.  The result pairs the trace of performed side
effects with the return value; `.error` carries the text of a raised
`CommandExecutionError`. -/
def genLocale (env : GenEnv) (locale : String) (verbose : Bool) :
    Except String (List Action × GenRet) := do
  let (valid, loc, info) ← genValid env locale
  if ¬valid then
    -- logged: locale not found in the searched database; returns False
    return ([], .flag false)
  let cmd ←
    if (env.whichProg "locale-gen").isSome then
      Except.ok (localeGenCmd env loc)
    else if (env.whichProg "localedef").isSome then
      Except.ok (localedefCmd info loc verbose)
    else
      Except.error "Command \"locale-gen\" or \"localedef\" was not found on this system."
  let res := env.runAll cmd
  if verbose then
    return (regActions env loc info ++ [Action.runCmd cmd], .full res)
  else
    return (regActions env loc info ++ [Action.runCmd cmd], .flag (res.retcode = 0))

/-! ## The RedHat/Debian `file.replace` edit of `set_locale`

`file.replace` is a collaborator whose source is not part of the repository
slice; its line-oriented semantics is modelled from the spec. -/

/-- A line matches the `^LANG=.*` pattern exactly when it starts with
`LANG=` (a line holds no newline, so `.*` matches the rest). -/
def matchesLangPat (l : String) : Bool :=
  "LANG=".toList.isPrefixOf l.toList

/-- Modelled from the spec: the `file.replace(path, '^LANG=.*',
'LANG="<locale>"', append_if_not_found=True)` edit of `set_locale`, on file
content given as a list of lines: every line matching `^LANG=.*` (that is,
starting with `LANG=`) is replaced by `LANG="<locale>"`; if no line matches,
such a line is appended. -/
def replaceLangLine (content : List String) (locale : String) : List String :=
  let repl := "LANG=\"" ++ locale ++ "\""
  if content.any (fun l => matchesLangPat l) then
    content.map (fun l => if matchesLangPat l then repl else l)
  else
    content ++ [repl]

/-! ## Concrete witness environments used by the proofs below -/

/-- Concrete retcode oracle for the C1 witness: exit 0 exactly on the merged
set-locale command line. -/
def rcWitness : String → Int :=
  fun c => if c = "localectl set-locale LANG=\"c\" LC_TIME=\"b\"" then 0 else 1

/-- Concrete environment for the C5 witness: RedHat family with a well-formed
grep output. -/
def getEnvW1 : GetEnv :=
  { osFamily := "RedHat"
    cmdRun := fun c =>
      if c = "grep \"^LANG=\" /etc/sysconfig/i18n" then "LANG=\"en_US.UTF-8\""
      else "" }

/-- Concrete environment for the C5 witness: unrecognized family whose empty
command produces no `=`. -/
def getEnvW2 : GetEnv :=
  { osFamily := "FreeBSD", cmdRun := fun _ => "no match found" }

/-- Witness env for C2: file-based (Debian), nothing found, charmap given. -/
def genEnvF : GenEnv :=
  { os := "Debian", osFamily := "Debian"
    fileSearch := fun _ _ => false
    listdir := fun _ => .ok []
    pathExists := fun _ => false
    whichProg := fun _ => none
    runAll := fun _ => { retcode := 0, stdout := "", stderr := "" } }

/-- Witness env for C2: directory-based, listing succeeds, entry absent. -/
def genEnvE : GenEnv :=
  { os := "CentOS", osFamily := "RedHat"
    fileSearch := fun _ _ => false
    listdir := fun _ => .ok ["aa_AA"]
    pathExists := fun _ => false
    whichProg := fun _ => none
    runAll := fun _ => { retcode := 0, stdout := "", stderr := "" } }

/-- Witness env for C2: directory-based, listing fails. -/
def genEnvD : GenEnv :=
  { os := "Ubuntu", osFamily := "Debian"
    fileSearch := fun _ _ => false
    listdir := fun _ => .error "No such file or directory"
    pathExists := fun _ => false
    whichProg := fun _ => none
    runAll := fun _ => { retcode := 0, stdout := "", stderr := "" } }

/-- Witness env for C6/C7/C9: Gentoo family, the SUPPORTED file knows only
the charmap-qualified spelling, `locale-gen` on the path, `/etc/locale.gen`
present. -/
def genEnvA : GenEnv :=
  { os := "Funtoo", osFamily := "Gentoo"
    fileSearch := fun _ pat => pat = "^xx_XX.UTF-8@UTF-8$"
    listdir := fun _ => .ok []
    pathExists := fun p => p = "/etc/locale.gen"
    whichProg := fun p => if p = "locale-gen" then some "/usr/sbin/locale-gen" else none
    runAll := fun _ => { retcode := 0, stdout := "", stderr := "" } }

/-- Witness env for C7: only `localedef` on the path, directory-based
validation succeeds. -/
def genEnvB : GenEnv :=
  { os := "CentOS", osFamily := "RedHat"
    fileSearch := fun _ _ => false
    listdir := fun _ => .ok ["xx_XX"]
    pathExists := fun _ => false
    whichProg := fun p => if p = "localedef" then some "/usr/bin/localedef" else none
    runAll := fun _ => { retcode := 1, stdout := "", stderr := "boom" } }

/-- Witness env for C7: neither tool on the path, file-based validation
succeeds. -/
def genEnvC : GenEnv :=
  { os := "Debian", osFamily := "Debian"
    fileSearch := fun _ _ => true
    listdir := fun _ => .ok []
    pathExists := fun _ => false
    whichProg := fun _ => none
    runAll := fun _ => { retcode := 0, stdout := "", stderr := "" } }

/-- Witness env for C9 with only `localedef` available (Debian, no
`/etc/locale.gen`). -/
def genEnvG : GenEnv :=
  { os := "Debian", osFamily := "Debian"
    fileSearch := fun _ pat => pat = "^xx_XX.UTF-8@UTF-8$"
    listdir := fun _ => .ok []
    pathExists := fun _ => false
    whichProg := fun p => if p = "localedef" then some "/usr/bin/localedef" else none
    runAll := fun _ => { retcode := 0, stdout := "", stderr := "" } }

end Localemod

namespace Localemod

/-! ## Association-list lemmas for the parameter map -/

lemma lookup_map_overwrite_ne (k v k2 : String) (h : k2 ≠ k) :
    ∀ m : List (String × String),
      (m.map (fun p => if p.1 = k then (k, v) else p)).lookup k2 = m.lookup k2 := by
  intro m
  have hkk : (k2 == k) = false := beq_eq_false_iff_ne.mpr h
  induction m with
  | nil => rfl
  | cons a t ih =>
      obtain ⟨a1, a2⟩ := a
      by_cases ha : a1 = k
      · have hmap : (fun p : String × String => if p.1 = k then (k, v) else p) (a1, a2) =
            (k, v) := by simp [ha]
        have hk2a : (k2 == a1) = false :=
          beq_eq_false_iff_ne.mpr (fun hc => h (hc.trans ha))
        simp only [List.map_cons, hmap, List.lookup_cons, hkk, hk2a]
        exact ih
      · have hmap : (fun p : String × String => if p.1 = k then (k, v) else p) (a1, a2) =
            (a1, a2) := by simp [ha]
        by_cases hk2a : k2 = a1
        · have hbt : (k2 == a1) = true := beq_iff_eq.mpr hk2a
          simp only [List.map_cons, hmap, List.lookup_cons, hbt]
        · have hbf : (k2 == a1) = false := beq_eq_false_iff_ne.mpr hk2a
          simp only [List.map_cons, hmap, List.lookup_cons, hbf]
          exact ih

lemma lookup_map_overwrite_eq (k v : String) :
    ∀ m : List (String × String), m.any (fun p => p.1 = k) = true →
      (m.map (fun p => if p.1 = k then (k, v) else p)).lookup k = some v := by
  intro m
  induction m with
  | nil => simp
  | cons a t ih =>
      intro hany
      obtain ⟨a1, a2⟩ := a
      by_cases ha : a1 = k
      · have hmap : (fun p : String × String => if p.1 = k then (k, v) else p) (a1, a2) =
            (k, v) := by simp [ha]
        have hbt : (k == k) = true := beq_iff_eq.mpr rfl
        simp only [List.map_cons, hmap, List.lookup_cons, hbt]
      · have hmap : (fun p : String × String => if p.1 = k then (k, v) else p) (a1, a2) =
            (a1, a2) := by simp [ha]
        have hbf : (k == a1) = false :=
          beq_eq_false_iff_ne.mpr (fun hc => ha hc.symm)
        have hany2 : t.any (fun p => p.1 = k) = true := by
          simp only [List.any_cons, Bool.or_eq_true] at hany
          rcases hany with h1 | h2
          · exact absurd (by simpa using h1) ha
          · exact h2
        simp only [List.map_cons, hmap, List.lookup_cons, hbf]
        exact ih hany2

lemma lookup_append_single_eq (k v : String) :
    ∀ m : List (String × String), m.any (fun p => p.1 = k) = false →
      (m ++ [(k, v)]).lookup k = some v := by
  intro m
  induction m with
  | nil =>
      intro _
      have hbt : (k == k) = true := beq_iff_eq.mpr rfl
      simp only [List.nil_append, List.lookup_cons, hbt]
  | cons a t ih =>
      intro hany
      obtain ⟨a1, a2⟩ := a
      simp only [List.any_cons, Bool.or_eq_false_iff] at hany
      have ha : ¬(a1 = k) := by simpa using hany.1
      have hbf : (k == a1) = false :=
        beq_eq_false_iff_ne.mpr (fun hc => ha hc.symm)
      simp only [List.cons_append, List.lookup_cons, hbf]
      exact ih hany.2

lemma lookup_append_single_ne (k v k2 : String) (h : k2 ≠ k) :
    ∀ m : List (String × String), (m ++ [(k, v)]).lookup k2 = m.lookup k2 := by
  intro m
  have hbf : (k2 == k) = false := beq_eq_false_iff_ne.mpr h
  induction m with
  | nil => simp only [List.nil_append, List.lookup_cons, hbf, List.lookup_nil]
  | cons a t ih =>
      obtain ⟨a1, a2⟩ := a
      by_cases hk2a : k2 = a1
      · have hbt : (k2 == a1) = true := beq_iff_eq.mpr hk2a
        simp only [List.cons_append, List.lookup_cons, hbt]
      · have hbf2 : (k2 == a1) = false := beq_eq_false_iff_ne.mpr hk2a
        simp only [List.cons_append, List.lookup_cons, hbf2]
        exact ih

/-- Python-dict semantics of `dictInsert` under lookup: the inserted key maps
to the new value, every other key is unchanged. -/
lemma lookup_dictInsert (m : List (String × String)) (k v k2 : String) :
    (dictInsert m k v).lookup k2 = if k2 = k then some v else m.lookup k2 := by
  unfold dictInsert
  by_cases hany : m.any (fun p => p.1 = k) = true
  · by_cases hk2 : k2 = k
    · rw [if_pos hany, if_pos hk2, hk2]
      exact lookup_map_overwrite_eq k v m hany
    · rw [if_pos hany, if_neg hk2]
      exact lookup_map_overwrite_ne k v k2 hk2 m
  · have hany2 : m.any (fun p => p.1 = k) = false := by
      simp only [Bool.not_eq_true] at hany
      exact hany
    by_cases hk2 : k2 = k
    · rw [if_neg hany, if_pos hk2, hk2]
      exact lookup_append_single_eq k v m hany2
    · rw [if_neg hany, if_neg hk2]
      exact lookup_append_single_ne k v k2 hk2 m

end Localemod

namespace Localemod

/-! ## C1: `_localectl_set` merges, not overwrites, the parameter map -/

/-- **C1.** For every parameter map obtained by parsing `localectl` output,
`_localectl_set(locale)` invokes `localectl set-locale` with every previously
parsed parameter unchanged except `LANG`, which is set to the requested
value, and returns true iff the command's exit code is 0. -/
theorem localectl_set_merges_params (lines : List String) (loc : String)
    (rc : String → Int) (m : List (String × String))
    (h : parseLocalectl lines = .ok m) :
    ((dictInsert m "LANG" loc).lookup "LANG" = some loc ∧
      ∀ k, k ≠ "LANG" → (dictInsert m "LANG" loc).lookup k = m.lookup k) ∧
    (localectlSet lines loc rc = .ok true ↔
      rc (localectlSetCmd (dictInsert m "LANG" loc)) = 0) := by
  refine ⟨⟨?_, ?_⟩, ?_⟩
  · simp [lookup_dictInsert]
  · intro k hk
    simp [lookup_dictInsert, hk]
  · unfold localectlSet
    rw [h]
    simp [Except.map]

/-- Witness for C1 at the spec's example map `{LANG: "a", LC_TIME: "b"}`. -/
theorem localectl_set_merges_params_witness :
    parseLocalectl ["System Locale: LANG=\"a\"", "   LC_TIME=\"b\""] =
        .ok [("LANG", "a"), ("LC_TIME", "b")] ∧
    (((dictInsert [("LANG", "a"), ("LC_TIME", "b")] "LANG" "c").lookup "LANG" =
          some "c" ∧
        ∀ k, k ≠ "LANG" →
          (dictInsert [("LANG", "a"), ("LC_TIME", "b")] "LANG" "c").lookup k =
            [("LANG", "a"), ("LC_TIME", "b")].lookup k) ∧
      (localectlSet ["System Locale: LANG=\"a\"", "   LC_TIME=\"b\""] "c" rcWitness =
          .ok true ↔
        rcWitness (localectlSetCmd
          (dictInsert [("LANG", "a"), ("LC_TIME", "b")] "LANG" "c")) = 0)) :=
  ⟨rfl, localectl_set_merges_params _ "c" rcWitness _ rfl⟩

end Localemod


namespace Localemod

/-! ## C3: `_parse_localectl` robustness -/

/-- When the line contains a colon, `splitColon1` yields two columns. -/
lemma splitColon1_of_contains (line : String)
    (h : line.toList.contains ':' = true) :
    ∃ c0 c1, splitColon1 line = [c0, c1] := by
  have hmem : ':' ∈ line.toList := List.elem_iff.mp h
  have hne : line.toList.dropWhile (fun c => c ≠ ':') ≠ [] := by
    intro hnil
    rw [List.dropWhile_eq_nil_iff] at hnil
    have := hnil ':' hmem
    simp at this
  unfold splitColon1
  cases hd : line.toList.dropWhile (fun c => c ≠ ':') with
  | nil => exact absurd hd hne
  | cons c rest => exact ⟨_, _, rfl⟩

/-- A step with an assigned `cur_param` never fails and keeps it assigned. -/
lemma parseStep_ok_of_some (st : Option String × List (String × String))
    (line : String) (h : st.1.isSome = true) :
    ∃ st2, parseStep st line = .ok st2 ∧ st2.1.isSome = true := by
  obtain ⟨cp, hcp⟩ := Option.isSome_iff_exists.mp h
  cases hsplit : splitColon1 line with
  | nil => exact ⟨st, by simp [parseStep, hsplit], h⟩
  | cons c0 tl =>
      cases tl with
      | nil =>
          by_cases hcpSL : cp = "System Locale"
          · cases hmk : matchKV c0 with
            | some kv =>
                exact ⟨(some cp, dictInsert st.2 kv.1 (stripQuotes kv.2)),
                  by simp [parseStep, hsplit, hcp, hcpSL, hmk], rfl⟩
            | none =>
                exact ⟨st, by simp [parseStep, hsplit, hcp, hcpSL, hmk], h⟩
          · exact ⟨st, by simp [parseStep, hsplit, hcp, hcpSL], h⟩
      | cons c1 tl2 =>
          cases tl2 with
          | nil =>
              by_cases hc0 : c0 = "System Locale"
              · cases hmk : matchKV c1 with
                | some kv =>
                    exact ⟨(some c0, dictInsert st.2 kv.1 (stripQuotes kv.2)),
                      by simp [parseStep, hsplit, hc0, hmk], rfl⟩
                | none =>
                    exact ⟨(some c0, st.2),
                      by simp [parseStep, hsplit, hc0, hmk], rfl⟩
              · exact ⟨(some c0, st.2), by simp [parseStep, hsplit, hc0], rfl⟩
          | cons _ _ => exact ⟨st, by simp [parseStep, hsplit], h⟩

/-- A step on a line with a colon never fails and assigns `cur_param`. -/
lemma parseStep_ok_of_colon (st : Option String × List (String × String))
    (line c0 c1 : String) (h : splitColon1 line = [c0, c1]) :
    ∃ st2, parseStep st line = .ok st2 ∧ st2.1.isSome = true := by
  by_cases hc0 : c0 = "System Locale"
  · cases hmk : matchKV c1 with
    | some kv =>
        exact ⟨(some c0, dictInsert st.2 kv.1 (stripQuotes kv.2)),
          by simp [parseStep, h, hc0, hmk], rfl⟩
    | none =>
        exact ⟨(some c0, st.2), by simp [parseStep, h, hc0, hmk], rfl⟩
  · exact ⟨(some c0, st.2), by simp [parseStep, h, hc0], rfl⟩

/-- Folding the parse step over any lines from an assigned state succeeds. -/
lemma foldlM_parseStep_ok (lines : List String) :
    ∀ st : Option String × List (String × String), st.1.isSome = true →
      ∃ st2, List.foldlM parseStep st lines = .ok st2 ∧ st2.1.isSome = true := by
  induction lines with
  | nil => exact fun st h => ⟨st, rfl, h⟩
  | cons l t ih =>
      intro st h
      obtain ⟨st2, hstep, h2⟩ := parseStep_ok_of_some st l h
      obtain ⟨st3, hf, h3⟩ := ih st2 h2
      refine ⟨st3, ?_, h3⟩
      rw [List.foldlM_cons, hstep]
      exact hf

/-- **C3 counterexample.** The claim quantifies over every sequence of
`localectl` output lines, but a first line without a colon makes the Python
loop read `cur_param` before assignment (`UnboundLocalError`): the embedded
parse fails on such input. -/
theorem parse_localectl_error_on_colonless_first_line :
    parseLocalectl ["no colon line"] = .error () := by rfl

/-- **C3 (amended).** Provided the first output line (if any) contains a
colon, `_parse_localectl` never raises; moreover, at every step, lines
outside a recognized "System Locale" block are ignored, and entries that
fail the `^[A-Z_]+=(.*)$` pattern are skipped rather than fatal. -/
theorem parse_localectl_total_and_skips (lines : List String)
    (h : lines = [] ∨
      ∃ l0 rest, lines = l0 :: rest ∧ l0.toList.contains ':' = true) :
    (parseLocalectl lines).isOk = true ∧
    (∀ (cp : String) (m : List (String × String)) (line c0 : String),
        splitColon1 line = [c0] → cp ≠ "System Locale" →
        parseStep (some cp, m) line = .ok (some cp, m)) ∧
    (∀ (st : Option String × List (String × String)) (line c0 c1 : String),
        splitColon1 line = [c0, c1] → c0 ≠ "System Locale" →
        parseStep st line = .ok (some c0, st.2)) ∧
    (∀ (m : List (String × String)) (line c0 : String),
        splitColon1 line = [c0] → matchKV c0 = none →
        parseStep (some "System Locale", m) line = .ok (some "System Locale", m)) ∧
    (∀ (st : Option String × List (String × String)) (line c0 c1 : String),
        splitColon1 line = [c0, c1] → matchKV c1 = none →
        parseStep st line = .ok (some c0, st.2)) := by
  refine ⟨?_, ?_, ?_, ?_, ?_⟩
  · rcases h with h | ⟨l0, rest, hlines, hcol⟩
    · subst h; rfl
    · subst hlines
      obtain ⟨c0, c1, hsplit⟩ := splitColon1_of_contains l0 hcol
      obtain ⟨st2, hstep, h2⟩ := parseStep_ok_of_colon (none, []) l0 c0 c1 hsplit
      obtain ⟨st3, hf, _⟩ := foldlM_parseStep_ok rest st2 h2
      unfold parseLocalectl
      rw [List.foldlM_cons, hstep]
      have hbind : ((Except.ok st2 : Except Unit _) >>=
          fun st => List.foldlM parseStep st rest) =
          List.foldlM parseStep st2 rest := rfl
      rw [hbind, hf]
      rfl
  · intro cp m line c0 hsplit hcp
    simp [parseStep, hsplit, hcp]
  · intro st line c0 c1 hsplit hc0
    simp [parseStep, hsplit, hc0]
  · intro m line c0 hsplit hmk
    simp [parseStep, hsplit, hmk]
  · intro st line c0 c1 hsplit hmk
    by_cases hc0 : c0 = "System Locale"
    · subst hc0
      simp [parseStep, hsplit, hmk]
    · simp [parseStep, hsplit, hc0]

/-- Witness for C3 (amended) on concrete `localectl` output. -/
theorem parse_localectl_total_and_skips_witness :
    ("System Locale: LANG=\"a\"").toList.contains ':' = true ∧
    (parseLocalectl
      ["System Locale: LANG=\"a\"", "odd", "VC Keymap: us"]).isOk = true ∧
    parseStep (some "VC Keymap", [("LANG", "a")]) "stray" =
      .ok (some "VC Keymap", [("LANG", "a")]) ∧
    parseStep (none, []) "VC Keymap: us" = .ok (some "VC Keymap", []) ∧
    parseStep (some "System Locale", [("LANG", "a")]) "odd" =
      .ok (some "System Locale", [("LANG", "a")]) ∧
    parseStep (none, []) "System Locale: ???" =
      .ok (some "System Locale", []) := by
  have ht := parse_localectl_total_and_skips
    ["System Locale: LANG=\"a\"", "odd", "VC Keymap: us"]
    (Or.inr ⟨"System Locale: LANG=\"a\"", ["odd", "VC Keymap: us"], rfl, by decide⟩)
  refine ⟨by decide, ht.1, ?_, ?_, ?_, ?_⟩
  · exact ht.2.1 "VC Keymap" [("LANG", "a")] "stray" "stray" (by decide) (by decide)
  · exact ht.2.2.1 (none, []) "VC Keymap: us" "VC Keymap" "us" (by decide) (by decide)
  · exact ht.2.2.2.1 [("LANG", "a")] "odd" "odd" (by decide) (by decide)
  · exact ht.2.2.2.2 (none, []) "System Locale: ???" "System Locale" "???"
      (by decide) (by decide)

end Localemod

namespace Localemod

/-! ## C5: `get_locale` extraction on RedHat/Debian -/

/-- A string without `=` extracts to the empty string (the `IndexError`
branch of `get_locale`). -/
lemma extractEq_no_eq (out : String) (h : ∀ c ∈ out.toList, c ≠ '=') :
    extractEq out = "" := by
  have hnil : out.toList.dropWhile (fun c => c ≠ '=') = [] := by
    rw [List.dropWhile_eq_nil_iff]
    intro x hx
    simpa using h x hx
  unfold extractEq
  rw [hnil]

/-- **C5 counterexample.** On RedHat with grep output `LANG=a=b`,
`get_locale` returns `a` (the text between the first and second `=`),
not `a=b` (the text after the first `=` as the claim states). -/
theorem get_locale_counterexample :
    getLocale { osFamily := "RedHat", cmdRun := fun _ => "LANG=a=b" } = .ok "a" ∧
    extractAfterFirstEqSpec "LANG=a=b" = "a=b" ∧
    ("a" : String) ≠ "a=b" :=
  ⟨by rfl, by rfl, by decide⟩

/-- **C5 (amended).** On the RedHat and Debian families `get_locale` returns,
without raising, the text between the first `=` and the following `=` (if
any) of the grep output with double quotes stripped; when no `=` is present,
or when the OS family is unrecognized (given that the empty command's output
has no `=`), it returns the empty string. -/
theorem get_locale_second_field :
    (∀ env : GetEnv, containsSubstr env.osFamily "Arch" = false →
        containsSubstr env.osFamily "RedHat" = true →
        getLocale env = .ok (extractEq (env.cmdRun "grep \"^LANG=\" /etc/sysconfig/i18n"))) ∧
    (∀ env : GetEnv, containsSubstr env.osFamily "Arch" = false →
        containsSubstr env.osFamily "RedHat" = false →
        containsSubstr env.osFamily "Debian" = true →
        getLocale env = .ok (extractEq (env.cmdRun "grep \"^LANG=\" /etc/default/locale"))) ∧
    (∀ out : String, (∀ c ∈ out.toList, c ≠ '=') → extractEq out = "") ∧
    (∀ env : GetEnv, containsSubstr env.osFamily "Arch" = false →
        containsSubstr env.osFamily "RedHat" = false →
        containsSubstr env.osFamily "Debian" = false →
        containsSubstr env.osFamily "Gentoo" = false →
        (∀ c ∈ (env.cmdRun "").toList, c ≠ '=') →
        getLocale env = .ok "") := by
  refine ⟨?_, ?_, extractEq_no_eq, ?_⟩
  · intro env h1 h2
    simp [getLocale, h1, h2]
  · intro env h1 h2 h3
    simp [getLocale, h1, h2, h3]
  · intro env h1 h2 h3 h4 hout
    simp [getLocale, h1, h2, h3, h4, extractEq_no_eq _ hout]

/-- Witness for C5 (amended) on the two concrete environments. -/
theorem get_locale_second_field_witness :
    (containsSubstr "RedHat" "Arch" = false ∧
      containsSubstr "RedHat" "RedHat" = true ∧
      getLocale getEnvW1 =
        .ok (extractEq (getEnvW1.cmdRun "grep \"^LANG=\" /etc/sysconfig/i18n"))) ∧
    extractEq "no equals sign" = "" ∧
    getLocale getEnvW2 = .ok "" := by
  refine ⟨⟨by decide, by decide, ?_⟩, ?_, ?_⟩
  · exact get_locale_second_field.1 getEnvW1 (by decide) (by decide)
  · exact get_locale_second_field.2.2.1 "no equals sign" (by decide)
  · exact get_locale_second_field.2.2.2 getEnvW2 (by decide) (by decide) (by decide)
      (by decide) (by decide)

end Localemod

namespace Localemod

/-! ## C4 and C10: `avail` -/

/-- When every entry of the list normalizes, the scan returns true exactly
when some entry normalizes to the requested key. -/
lemma availScan_iff (n : String) :
    ∀ l : List String,
      (∀ x ∈ l, (normalizeLocale (pyStripStr x)).isSome = true) →
      (availScan n l = .ok true ↔
        ∃ x ∈ l, normalizeLocale (pyStripStr x) = some n) := by
  intro l
  induction l with
  | nil => simp [availScan]
  | cons x xs ih =>
      intro hall
      have hx := hall x (List.mem_cons_self x xs)
      obtain ⟨nx, hnx⟩ := Option.isSome_iff_exists.mp hx
      have hxs : ∀ y ∈ xs, (normalizeLocale (pyStripStr y)).isSome = true :=
        fun y hy => hall y (List.mem_cons_of_mem x hy)
      by_cases heq : nx = n
      · subst heq
        constructor
        · intro _
          exact ⟨x, List.mem_cons_self x xs, hnx⟩
        · intro _
          simp [availScan, hnx]
      · constructor
        · intro hscan
          simp only [availScan, hnx, if_neg heq] at hscan
          obtain ⟨y, hy, hny⟩ := (ih hxs).mp hscan
          exact ⟨y, List.mem_cons_of_mem x hy, hny⟩
        · intro hex
          obtain ⟨y, hy, hny⟩ := hex
          rcases List.mem_cons.mp hy with hyx | hyxs
          · subst hyx
            rw [hnx] at hny
            exact absurd (Option.some.inj hny) heq
          · simp only [availScan, hnx, if_neg heq]
            exact (ih hxs).mpr ⟨y, hyxs, hny⟩

/-- A non-normalizable entry ahead of any match makes the scan fail. -/
lemma availScan_error (n bad : String) (post : List String)
    (hbad : normalizeLocale (pyStripStr bad) = none) :
    ∀ pre : List String,
      (∀ x ∈ pre, ∃ nx,
        normalizeLocale (pyStripStr x) = some nx ∧ nx ≠ n) →
      availScan n (pre ++ bad :: post) = .error () := by
  intro pre
  induction pre with
  | nil =>
      intro _
      simp [availScan, hbad]
  | cons x xs ih =>
      intro hall
      obtain ⟨nx, hnx, hne⟩ := hall x (List.mem_cons_self x xs)
      have hxs : ∀ y ∈ xs, ∃ ny,
          normalizeLocale (pyStripStr y) = some ny ∧ ny ≠ n :=
        fun y hy => hall y (List.mem_cons_of_mem x hy)
      simp only [List.cons_append, availScan, hnx, if_neg hne]
      exact ih hxs

/-- **C4 counterexample.** Against the list `["x", "en_US.utf8"]` the request
`en_US.UTF-8` normalizes successfully and the second entry normalizes to the
same key, yet `avail` does not return true: the first entry's normalization
raises and propagates. -/
theorem avail_counterexample :
    availCheck "en_US.UTF-8" ["x", "en_US.utf8"] = .error () ∧
    normalizeLocale (pyStripStr "en_US.utf8") =
      normalizeLocale "en_US.UTF-8" ∧
    (normalizeLocale "en_US.UTF-8").isSome = true :=
  ⟨by rfl, by rfl, by rfl⟩

/-- **C4 (amended).** `avail` returns false (without raising) if normalizing
the request fails; otherwise, provided every trimmed entry of the
available-locales list normalizes successfully, it returns true iff some
entry normalizes equal to the normalized request; and two requests that
normalize equally always yield the same result against an identical list. -/
theorem avail_normalized_match :
    (∀ (loc : String) (l : List String), normalizeLocale loc = none →
        availCheck loc l = .ok false) ∧
    (∀ (loc n : String) (l : List String), normalizeLocale loc = some n →
        (∀ x ∈ l, (normalizeLocale (pyStripStr x)).isSome = true) →
        (availCheck loc l = .ok true ↔
          ∃ x ∈ l, normalizeLocale (pyStripStr x) = some n)) ∧
    (∀ (a b : String) (l : List String), normalizeLocale a = normalizeLocale b →
        availCheck a l = availCheck b l) := by
  refine ⟨?_, ?_, ?_⟩
  · intro loc l h
    simp [availCheck, h]
  · intro loc n l hn hall
    simpa [availCheck, hn] using availScan_iff n l hall
  · intro a b l h
    unfold availCheck
    rw [h]

/-- Witness for C4 (amended): the spec's `en_US.utf8` / `en_US.UTF-8` pair. -/
theorem avail_normalized_match_witness :
    (availCheck "enUS" ["en_US.utf8"] = .ok false) ∧
    (normalizeLocale "en_US.UTF-8" = some "en_US.utf8" ∧
      (availCheck "en_US.UTF-8" ["fr_FR.utf8", "en_US.utf8"] = .ok true ↔
        ∃ x ∈ ["fr_FR.utf8", "en_US.utf8"],
          normalizeLocale (pyStripStr x) = some "en_US.utf8")) ∧
    availCheck "en_US.utf8" ["en_US.UTF-8"] =
      availCheck "en_US.UTF-8" ["en_US.UTF-8"] := by
  refine ⟨?_, ⟨by rfl, ?_⟩, ?_⟩
  · exact avail_normalized_match.1 "enUS" ["en_US.utf8"] (by rfl)
  · exact avail_normalized_match.2.1 "en_US.UTF-8" "en_US.utf8"
      ["fr_FR.utf8", "en_US.utf8"] (by rfl) (by decide)
  · exact avail_normalized_match.2.2 "en_US.utf8" "en_US.UTF-8"
      ["en_US.UTF-8"] (by rfl)

end Localemod

namespace Localemod

/-! ## `gen_locale` unfolding lemmas -/

lemma exceptBind_ok {α β ε : Type} (x : α) (f : α → Except ε β) :
    (Except.ok x >>= f) = f x := rfl

lemma exceptBind_error {α β ε : Type} (e : ε) (f : α → Except ε β) :
    ((Except.error e : Except ε α) >>= f) = .error e := rfl

lemma exceptPure {α ε : Type} (x : α) : (pure x : Except ε α) = .ok x := rfl

/-- A failed validation short-circuits `gen_locale` to `False`. -/
lemma genLocale_invalid (env : GenEnv) (locale : String) (v : Bool)
    (l : String) (i : LocaleInfo)
    (h : genValid env locale = .ok (false, l, i)) :
    genLocale env locale v = .ok ([], .flag false) := by
  unfold genLocale
  rw [h, exceptBind_ok]
  simp [exceptPure]

/-- With `locale-gen` on the path, `gen_locale` registers and runs it. -/
lemma genLocale_localegen (env : GenEnv) (locale : String) (v : Bool)
    (loc2 : String) (info2 : LocaleInfo)
    (hv : genValid env locale = .ok (true, loc2, info2))
    (hw : (env.whichProg "locale-gen").isSome = true) :
    genLocale env locale v =
      .ok (regActions env loc2 info2 ++ [Action.runCmd (localeGenCmd env loc2)],
        if v then GenRet.full (env.runAll (localeGenCmd env loc2))
        else GenRet.flag ((env.runAll (localeGenCmd env loc2)).retcode = 0)) := by
  unfold genLocale
  rw [hv, exceptBind_ok]
  simp only [hw]
  cases v <;> simp [exceptBind_ok, exceptPure]

/-- Without `locale-gen` but with `localedef`, `gen_locale` runs the latter. -/
lemma genLocale_localedef (env : GenEnv) (locale : String) (v : Bool)
    (loc2 : String) (info2 : LocaleInfo)
    (hv : genValid env locale = .ok (true, loc2, info2))
    (hw1 : env.whichProg "locale-gen" = none)
    (hw2 : (env.whichProg "localedef").isSome = true) :
    genLocale env locale v =
      .ok (regActions env loc2 info2 ++ [Action.runCmd (localedefCmd info2 loc2 v)],
        if v then GenRet.full (env.runAll (localedefCmd info2 loc2 v))
        else GenRet.flag ((env.runAll (localedefCmd info2 loc2 v)).retcode = 0)) := by
  unfold genLocale
  rw [hv, exceptBind_ok]
  simp only [hw1, hw2]
  cases v <;> simp [exceptBind_ok, exceptPure]

/-- With neither tool on the path, `gen_locale` raises. -/
lemma genLocale_notools (env : GenEnv) (locale : String) (v : Bool)
    (loc2 : String) (info2 : LocaleInfo)
    (hv : genValid env locale = .ok (true, loc2, info2))
    (hw1 : env.whichProg "locale-gen" = none)
    (hw2 : env.whichProg "localedef" = none) :
    genLocale env locale v =
      .error "Command \"locale-gen\" or \"localedef\" was not found on this system." := by
  unfold genLocale
  rw [hv, exceptBind_ok]
  simp [hw1, hw2, exceptBind_error]

/-- File-based validation: exact first hit validates with the original
locale string. -/
lemma genValid_file_found (env : GenEnv) (locale : String)
    (hos : env.os = "Debian" ∨ env.osFamily = "Gentoo")
    (hs : env.fileSearch "/usr/share/i18n/SUPPORTED" ("^" ++ locale ++ "$") = true) :
    genValid env locale = .ok (true, locale, splitLocale locale) := by
  unfold genValid
  rw [if_pos hos]
  simp [hs]

/-- File-based validation: first miss with no supplied charmap re-searches
with the rejoined locale (codeset copied to the charmap). -/
lemma genValid_fallback (env : GenEnv) (locale : String)
    (hos : env.os = "Debian" ∨ env.osFamily = "Gentoo")
    (hs1 : env.fileSearch "/usr/share/i18n/SUPPORTED" ("^" ++ locale ++ "$") = false)
    (hcm : (splitLocale locale).charmap = "") :
    genValid env locale =
      .ok (env.fileSearch "/usr/share/i18n/SUPPORTED"
             ("^" ++ joinLocale
               { splitLocale locale with charmap := (splitLocale locale).codeset } ++ "$"),
           joinLocale
             { splitLocale locale with charmap := (splitLocale locale).codeset },
           { splitLocale locale with charmap := (splitLocale locale).codeset }) := by
  unfold genValid
  rw [if_pos hos]
  simp [hs1, hcm]

/-- File-based validation: first miss with an explicitly supplied charmap
does not retry. -/
lemma genValid_file_notfound (env : GenEnv) (locale : String)
    (hos : env.os = "Debian" ∨ env.osFamily = "Gentoo")
    (hs1 : env.fileSearch "/usr/share/i18n/SUPPORTED" ("^" ++ locale ++ "$") = false)
    (hcm : (splitLocale locale).charmap ≠ "") :
    genValid env locale = .ok (false, locale, splitLocale locale) := by
  unfold genValid
  rw [if_pos hos]
  simp [hs1, hcm]

/-- Directory-based validation with a successful listing checks the
`language_territory` entry. -/
lemma genValid_dir (env : GenEnv) (locale : String) (entries : List String)
    (hos : ¬(env.os = "Debian" ∨ env.osFamily = "Gentoo"))
    (hl : env.listdir
        (if env.osFamily = "Suse" then "/usr/share/locale"
         else "/usr/share/i18n/locales") = .ok entries) :
    genValid env locale =
      .ok (decide (((splitLocale locale).language ++ "_" ++
            (splitLocale locale).territory) ∈ entries), locale,
          splitLocale locale) := by
  unfold genValid
  rw [if_neg hos]
  simp only [hl]

/-- Directory-based validation with a failed listing raises. -/
lemma genValid_dir_err (env : GenEnv) (locale : String) (e : String)
    (hos : ¬(env.os = "Debian" ∨ env.osFamily = "Gentoo"))
    (hl : env.listdir
        (if env.osFamily = "Suse" then "/usr/share/locale"
         else "/usr/share/i18n/locales") = .error e) :
    genValid env locale = .error ("Locale \"" ++ locale ++ "\" is not available.") := by
  unfold genValid
  rw [if_neg hos]
  simp only [hl]

end Localemod

namespace Localemod

/-! ## C10: `avail` guards only the request normalization -/

/-- **C10.** `avail` guards the normalization of the requested locale only:
a failing request normalization yields false, while a failing normalization
of a trimmed available-list entry ahead of any match propagates to the
caller instead of being turned into false. -/
theorem avail_entry_failure_propagates :
    (∀ (loc : String) (l : List String), normalizeLocale loc = none →
        availCheck loc l = .ok false) ∧
    (∀ (loc n bad : String) (pre post : List String),
        normalizeLocale loc = some n →
        (∀ x ∈ pre, ∃ nx, normalizeLocale (pyStripStr x) = some nx ∧ nx ≠ n) →
        normalizeLocale (pyStripStr bad) = none →
        availCheck loc (pre ++ bad :: post) = .error ()) := by
  refine ⟨?_, ?_⟩
  · intro loc l h
    simp [availCheck, h]
  · intro loc n bad pre post hn hpre hbad
    simp only [availCheck, hn]
    exact availScan_error n bad post hbad pre hpre

/-- Witness for C10: the trailing empty entry produced by `list_avail`
propagates its normalization failure. -/
theorem avail_entry_failure_propagates_witness :
    (normalizeLocale "enUS" = none ∧ availCheck "enUS" [""] = .ok false) ∧
    (normalizeLocale "en_US.UTF-8" = some "en_US.utf8" ∧
      normalizeLocale (pyStripStr "") = none ∧
      availCheck "en_US.UTF-8" (["fr_FR.utf8"] ++ "" :: []) = .error ()) := by
  refine ⟨⟨by rfl, ?_⟩, ⟨by rfl, by rfl, ?_⟩⟩
  · exact avail_entry_failure_propagates.1 "enUS" [""] (by rfl)
  · exact avail_entry_failure_propagates.2 "en_US.UTF-8" "en_US.utf8" ""
      ["fr_FR.utf8"] [] (by rfl)
      (by
        intro x hx
        rw [List.mem_singleton] at hx
        subst hx
        exact ⟨"fr_FR.utf8", by rfl, by decide⟩)
      (by rfl)

/-! ## C2: `gen_locale` returns false on unsupported locales, raises on
directory-listing failure -/

/-- **C2.** `gen_locale` returns false (not an exception) when validation
fails — the locale is absent from the SUPPORTED file with no matching
charmap fallback, or the `language_territory` directory entry is absent —
whereas a directory-listing failure during directory-based validation
raises an explicit fatal error. -/
theorem gen_locale_false_vs_fatal :
    (∀ (env : GenEnv) (locale : String) (v : Bool),
        (env.os = "Debian" ∨ env.osFamily = "Gentoo") →
        env.fileSearch "/usr/share/i18n/SUPPORTED" ("^" ++ locale ++ "$") = false →
        ((splitLocale locale).charmap ≠ "" ∨
          env.fileSearch "/usr/share/i18n/SUPPORTED"
            ("^" ++ joinLocale
              { splitLocale locale with
                  charmap := (splitLocale locale).codeset } ++ "$") = false) →
        genLocale env locale v = .ok ([], .flag false)) ∧
    (∀ (env : GenEnv) (locale : String) (v : Bool) (entries : List String),
        ¬(env.os = "Debian" ∨ env.osFamily = "Gentoo") →
        env.listdir
            (if env.osFamily = "Suse" then "/usr/share/locale"
             else "/usr/share/i18n/locales") = .ok entries →
        ((splitLocale locale).language ++ "_" ++ (splitLocale locale).territory)
            ∉ entries →
        genLocale env locale v = .ok ([], .flag false)) ∧
    (∀ (env : GenEnv) (locale : String) (v : Bool) (e : String),
        ¬(env.os = "Debian" ∨ env.osFamily = "Gentoo") →
        env.listdir
            (if env.osFamily = "Suse" then "/usr/share/locale"
             else "/usr/share/i18n/locales") = .error e →
        genLocale env locale v =
          .error ("Locale \"" ++ locale ++ "\" is not available.")) := by
  refine ⟨?_, ?_, ?_⟩
  · intro env locale v hos hs1 hrest
    by_cases hcm : (splitLocale locale).charmap = ""
    · rcases hrest with hcm2 | hs2
      · exact absurd hcm hcm2
      · exact genLocale_invalid env locale v _ _
          (by rw [genValid_fallback env locale hos hs1 hcm, hs2])
    · exact genLocale_invalid env locale v _ _
        (genValid_file_notfound env locale hos hs1 hcm)
  · intro env locale v entries hos hl hnot
    refine genLocale_invalid env locale v locale (splitLocale locale) ?_
    rw [genValid_dir env locale entries hos hl]
    simp [hnot]
  · intro env locale v e hos hl
    unfold genLocale
    rw [genValid_dir_err env locale e hos hl, exceptBind_error]

/-- Witness for C2 on three concrete environments. -/
theorem gen_locale_false_vs_fatal_witness :
    ((splitLocale "xx_XX.UTF-8@FOO").charmap ≠ "" ∧
      genLocale genEnvF "xx_XX.UTF-8@FOO" false = .ok ([], .flag false)) ∧
    genLocale genEnvE "xx_XX.UTF-8" false = .ok ([], .flag false) ∧
    genLocale genEnvD "xx_XX.UTF-8" false =
      .error "Locale \"xx_XX.UTF-8\" is not available." := by
  refine ⟨⟨by decide, ?_⟩, ?_, ?_⟩
  · exact gen_locale_false_vs_fatal.1 genEnvF "xx_XX.UTF-8@FOO" false
      (Or.inl rfl) rfl (Or.inl (by decide))
  · exact gen_locale_false_vs_fatal.2.1 genEnvE "xx_XX.UTF-8" false ["aa_AA"]
      (by decide) rfl (by decide)
  · exact gen_locale_false_vs_fatal.2.2 genEnvD "xx_XX.UTF-8" false
      "No such file or directory" (by decide) rfl

end Localemod

namespace Localemod

/-! ## C6: SUPPORTED-file search with charmap fallback -/

/-- **C6.** On Debian and Gentoo, `gen_locale` searches
`/usr/share/i18n/SUPPORTED` for an exact (anchored `^...$`) line match of
the locale string; if not found and no charmap was supplied, it copies the
codeset into the charmap, rejoins the locale, and re-searches; if a charmap
was supplied, there is no retry. -/
theorem gen_locale_supported_search (env : GenEnv) (locale : String)
    (hos : env.os = "Debian" ∨ env.osFamily = "Gentoo") :
    (env.fileSearch "/usr/share/i18n/SUPPORTED" ("^" ++ locale ++ "$") = true →
      genValid env locale = .ok (true, locale, splitLocale locale)) ∧
    (env.fileSearch "/usr/share/i18n/SUPPORTED" ("^" ++ locale ++ "$") = false →
      (splitLocale locale).charmap = "" →
      genValid env locale =
        .ok (env.fileSearch "/usr/share/i18n/SUPPORTED"
               ("^" ++ joinLocale
                 { splitLocale locale with
                     charmap := (splitLocale locale).codeset } ++ "$"),
             joinLocale
               { splitLocale locale with
                   charmap := (splitLocale locale).codeset },
             { splitLocale locale with
                 charmap := (splitLocale locale).codeset })) ∧
    (env.fileSearch "/usr/share/i18n/SUPPORTED" ("^" ++ locale ++ "$") = false →
      (splitLocale locale).charmap ≠ "" →
      genValid env locale = .ok (false, locale, splitLocale locale)) :=
  ⟨fun hs => genValid_file_found env locale hos hs,
   fun hs1 hcm => genValid_fallback env locale hos hs1 hcm,
   fun hs1 hcm => genValid_file_notfound env locale hos hs1 hcm⟩

/-- Witness for C6 on concrete searches: hit, fallback re-search, and
no-retry when a charmap was supplied. -/
theorem gen_locale_supported_search_witness :
    (genEnvA.fileSearch "/usr/share/i18n/SUPPORTED" "^xx_XX.UTF-8@UTF-8$" = true ∧
      genValid genEnvA "xx_XX.UTF-8@UTF-8" =
        .ok (true, "xx_XX.UTF-8@UTF-8", splitLocale "xx_XX.UTF-8@UTF-8")) ∧
    ((splitLocale "xx_XX.UTF-8").charmap = "" ∧
      genValid genEnvA "xx_XX.UTF-8" =
        .ok (genEnvA.fileSearch "/usr/share/i18n/SUPPORTED"
               ("^" ++ joinLocale
                 { splitLocale "xx_XX.UTF-8" with
                     charmap := (splitLocale "xx_XX.UTF-8").codeset } ++ "$"),
             joinLocale
               { splitLocale "xx_XX.UTF-8" with
                   charmap := (splitLocale "xx_XX.UTF-8").codeset },
             { splitLocale "xx_XX.UTF-8" with
                 charmap := (splitLocale "xx_XX.UTF-8").codeset })) ∧
    ((splitLocale "yy_YY.UTF-8@BAR").charmap ≠ "" ∧
      genValid genEnvA "yy_YY.UTF-8@BAR" =
        .ok (false, "yy_YY.UTF-8@BAR", splitLocale "yy_YY.UTF-8@BAR")) := by
  refine ⟨⟨by rfl, ?_⟩, ⟨by rfl, ?_⟩, ⟨by decide, ?_⟩⟩
  · exact (gen_locale_supported_search genEnvA "xx_XX.UTF-8@UTF-8"
      (Or.inr rfl)).1 (by rfl)
  · exact (gen_locale_supported_search genEnvA "xx_XX.UTF-8"
      (Or.inr rfl)).2.1 (by rfl) (by rfl)
  · exact (gen_locale_supported_search genEnvA "yy_YY.UTF-8@BAR"
      (Or.inr rfl)).2.2 (by rfl) (by decide)

/-! ## C7: compile-tool selection -/

/-- **C7.** For every validated locale, `gen_locale` compiles with
`locale-gen` when present on the search path, otherwise with `localedef`
when that is present, and raises an explicit fatal error when neither tool
is found. -/
theorem gen_locale_tool_selection (env : GenEnv) (locale : String) (v : Bool)
    (loc2 : String) (info2 : LocaleInfo)
    (hv : genValid env locale = .ok (true, loc2, info2)) :
    ((env.whichProg "locale-gen").isSome = true →
      genLocale env locale v =
        .ok (regActions env loc2 info2 ++ [Action.runCmd (localeGenCmd env loc2)],
          if v then GenRet.full (env.runAll (localeGenCmd env loc2))
          else GenRet.flag ((env.runAll (localeGenCmd env loc2)).retcode = 0))) ∧
    (env.whichProg "locale-gen" = none → (env.whichProg "localedef").isSome = true →
      genLocale env locale v =
        .ok (regActions env loc2 info2 ++ [Action.runCmd (localedefCmd info2 loc2 v)],
          if v then GenRet.full (env.runAll (localedefCmd info2 loc2 v))
          else GenRet.flag ((env.runAll (localedefCmd info2 loc2 v)).retcode = 0))) ∧
    (env.whichProg "locale-gen" = none → env.whichProg "localedef" = none →
      genLocale env locale v =
        .error "Command \"locale-gen\" or \"localedef\" was not found on this system.") :=
  ⟨fun hw => genLocale_localegen env locale v loc2 info2 hv hw,
   fun h1 h2 => genLocale_localedef env locale v loc2 info2 hv h1 h2,
   fun h1 h2 => genLocale_notools env locale v loc2 info2 hv h1 h2⟩

/-- Witness for C7 on three concrete environments. -/
theorem gen_locale_tool_selection_witness :
    ((genEnvA.whichProg "locale-gen").isSome = true ∧
      genLocale genEnvA "xx_XX.UTF-8@UTF-8" false =
        .ok ([Action.fileReplace "/etc/locale.gen"
                "^\\s*#\\s*xx_XX.UTF-8@UTF-8\\s*$" "xx_XX.UTF-8@UTF-8" true,
              Action.runCmd ["locale-gen", "--generate", "xx_XX.UTF-8@UTF-8"]],
          GenRet.flag true)) ∧
    (genEnvB.whichProg "locale-gen" = none ∧
      genLocale genEnvB "xx_XX.UTF-8" false =
        .ok ([Action.runCmd ["localedef", "--force", "-i", "xx_XX", "-f", "UTF-8",
                "xx_XX.UTF-8", "--quiet"]],
          GenRet.flag false)) ∧
    genLocale genEnvC "xx_XX.UTF-8" false =
      .error "Command \"locale-gen\" or \"localedef\" was not found on this system." := by
  refine ⟨⟨by rfl, ?_⟩, ⟨by rfl, ?_⟩, ?_⟩
  · exact (gen_locale_tool_selection genEnvA "xx_XX.UTF-8@UTF-8" false
      "xx_XX.UTF-8@UTF-8" (splitLocale "xx_XX.UTF-8@UTF-8") (by rfl)).1 (by rfl)
  · exact (gen_locale_tool_selection genEnvB "xx_XX.UTF-8" false
      "xx_XX.UTF-8" (splitLocale "xx_XX.UTF-8") (by rfl)).2.1 (by rfl) (by rfl)
  · exact (gen_locale_tool_selection genEnvC "xx_XX.UTF-8" false
      "xx_XX.UTF-8" (splitLocale "xx_XX.UTF-8") (by rfl)).2.2 (by rfl) (by rfl)

end Localemod

namespace Localemod

/-! ## C9: the rejoined locale is used downstream -/

/-- **C9.** When the charmap fallback applies (no charmap supplied and the
first SUPPORTED search fails) and the re-search succeeds, every subsequent
step of `gen_locale` — the `/etc/locale.gen` or Ubuntu `supported.d`
registration, the `locale-gen` argument, and the final `localedef`
argument — uses the rejoined locale string (codeset copied to the charmap),
not the caller's original string. -/
theorem gen_locale_fallback_downstream (env : GenEnv) (locale : String) (v : Bool)
    (hos : env.os = "Debian" ∨ env.osFamily = "Gentoo")
    (hs1 : env.fileSearch "/usr/share/i18n/SUPPORTED" ("^" ++ locale ++ "$") = false)
    (hcm : (splitLocale locale).charmap = "")
    (hs2 : env.fileSearch "/usr/share/i18n/SUPPORTED"
        ("^" ++ joinLocale
          { splitLocale locale with
              charmap := (splitLocale locale).codeset } ++ "$") = true) :
    genValid env locale =
      .ok (true,
           joinLocale
             { splitLocale locale with charmap := (splitLocale locale).codeset },
           { splitLocale locale with charmap := (splitLocale locale).codeset }) ∧
    ((env.whichProg "locale-gen").isSome = true →
      genLocale env locale v =
        .ok (regActions env
               (joinLocale
                 { splitLocale locale with
                     charmap := (splitLocale locale).codeset })
               { splitLocale locale with
                   charmap := (splitLocale locale).codeset } ++
             [Action.runCmd (localeGenCmd env
               (joinLocale
                 { splitLocale locale with
                     charmap := (splitLocale locale).codeset }))],
          if v then
            GenRet.full (env.runAll (localeGenCmd env
              (joinLocale
                { splitLocale locale with
                    charmap := (splitLocale locale).codeset })))
          else
            GenRet.flag ((env.runAll (localeGenCmd env
              (joinLocale
                { splitLocale locale with
                    charmap := (splitLocale locale).codeset }))).retcode = 0))) ∧
    (env.whichProg "locale-gen" = none → (env.whichProg "localedef").isSome = true →
      genLocale env locale v =
        .ok (regActions env
               (joinLocale
                 { splitLocale locale with
                     charmap := (splitLocale locale).codeset })
               { splitLocale locale with
                   charmap := (splitLocale locale).codeset } ++
             [Action.runCmd (localedefCmd
               { splitLocale locale with
                   charmap := (splitLocale locale).codeset }
               (joinLocale
                 { splitLocale locale with
                     charmap := (splitLocale locale).codeset }) v)],
          if v then
            GenRet.full (env.runAll (localedefCmd
              { splitLocale locale with
                  charmap := (splitLocale locale).codeset }
              (joinLocale
                { splitLocale locale with
                    charmap := (splitLocale locale).codeset }) v))
          else
            GenRet.flag ((env.runAll (localedefCmd
              { splitLocale locale with
                  charmap := (splitLocale locale).codeset }
              (joinLocale
                { splitLocale locale with
                    charmap := (splitLocale locale).codeset }) v)).retcode = 0))) := by
  have hv : genValid env locale =
      .ok (true,
           joinLocale
             { splitLocale locale with charmap := (splitLocale locale).codeset },
           { splitLocale locale with charmap := (splitLocale locale).codeset }) := by
    rw [genValid_fallback env locale hos hs1 hcm, hs2]
  exact ⟨hv,
    fun hw => genLocale_localegen env locale v _ _ hv hw,
    fun h1 h2 => genLocale_localedef env locale v _ _ hv h1 h2⟩

/-- Witness for C9: with original request `xx_XX.UTF-8`, the registration
and the compile command both carry the rejoined `xx_XX.UTF-8@UTF-8`. -/
theorem gen_locale_fallback_downstream_witness :
    ((splitLocale "xx_XX.UTF-8").charmap = "" ∧
      genValid genEnvA "xx_XX.UTF-8" =
        .ok (true, "xx_XX.UTF-8@UTF-8", splitLocale "xx_XX.UTF-8@UTF-8")) ∧
    genLocale genEnvA "xx_XX.UTF-8" false =
      .ok ([Action.fileReplace "/etc/locale.gen"
              "^\\s*#\\s*xx_XX.UTF-8@UTF-8\\s*$" "xx_XX.UTF-8@UTF-8" true,
            Action.runCmd ["locale-gen", "--generate", "xx_XX.UTF-8@UTF-8"]],
        GenRet.flag true) ∧
    genLocale genEnvG "xx_XX.UTF-8" false =
      .ok ([Action.runCmd ["localedef", "--force", "-i", "xx_XX", "-f", "UTF-8",
              "xx_XX.UTF-8@UTF-8", "--quiet"]],
        GenRet.flag true) := by
  refine ⟨⟨by rfl, ?_⟩, ?_, ?_⟩
  · exact (gen_locale_fallback_downstream genEnvA "xx_XX.UTF-8" false
      (Or.inr rfl) (by rfl) (by rfl) (by rfl)).1
  · exact (gen_locale_fallback_downstream genEnvA "xx_XX.UTF-8" false
      (Or.inr rfl) (by rfl) (by rfl) (by rfl)).2.1 (by rfl)
  · exact (gen_locale_fallback_downstream genEnvG "xx_XX.UTF-8" false
      (Or.inl rfl) (by rfl) (by rfl) (by rfl)).2.2 (by rfl) (by rfl)

end Localemod

namespace Localemod

/-! ## C8: idempotence of the `set_locale` file edit -/

/-- The replacement line itself matches the `^LANG=.*` pattern. -/
lemma matchesLangPat_repl (locale : String) :
    matchesLangPat ("LANG=\"" ++ locale ++ "\"") = true := by
  unfold matchesLangPat
  have h1 : ("LANG=\"" ++ locale ++ "\"").toList =
      "LANG=".toList ++ ('"' :: (locale.toList ++ ['"'])) := by
    have : ("LANG=\"" ++ locale ++ "\"").toList =
        "LANG=\"".toList ++ locale.toList ++ "\"".toList := by
      simp [String.toList, String.data_append]
    rw [this]
    simp
  rw [h1, List.isPrefixOf_iff_prefix]
  exact List.prefix_append _ _

/-- **C8.** The RedHat/Debian file edit performed by `set_locale` (replace
every `^LANG=.*` line by `LANG="<locale>"`, appending one when no line
matches) is idempotent: applying it twice with the same locale yields
content identical to applying it once. -/
theorem set_locale_replace_idempotent (content : List String) (locale : String) :
    replaceLangLine (replaceLangLine content locale) locale =
      replaceLangLine content locale := by
  unfold replaceLangLine
  by_cases hany : content.any (fun l => matchesLangPat l) = true
  · rw [if_pos hany]
    have hany2 : (content.map
        (fun l => if matchesLangPat l then "LANG=\"" ++ locale ++ "\"" else l)).any
        (fun l => matchesLangPat l) = true := by
      rw [List.any_eq_true] at hany ⊢
      obtain ⟨l, hl, hm⟩ := hany
      refine ⟨"LANG=\"" ++ locale ++ "\"", ?_, matchesLangPat_repl locale⟩
      rw [List.mem_map]
      exact ⟨l, hl, by simp [hm]⟩
    rw [if_pos hany2, List.map_map]
    refine List.map_congr_left ?_
    intro l _
    by_cases hm : matchesLangPat l = true
    · simp [Function.comp, hm, matchesLangPat_repl locale]
    · simp [Function.comp, hm]
  · rw [if_neg hany]
    have hany2 : (content ++ ["LANG=\"" ++ locale ++ "\""]).any
        (fun l => matchesLangPat l) = true := by
      rw [List.any_eq_true]
      exact ⟨"LANG=\"" ++ locale ++ "\"", by simp, matchesLangPat_repl locale⟩
    rw [if_pos hany2, List.map_append]
    have hmap : content.map
        (fun l => if matchesLangPat l then "LANG=\"" ++ locale ++ "\"" else l) =
        content := by
      refine List.map_congr_left ?_ |>.trans (List.map_id content)
      intro l hl
      have : matchesLangPat l = false := by
        rw [Bool.not_eq_true] at hany
        rw [List.any_eq_false] at hany
        exact Bool.not_eq_true _ |>.mp (hany l hl)
      simp [this]
    rw [hmap]
    simp [matchesLangPat_repl locale]

end Localemod
